import Mathlib

/-!
# Verification of the Ask Delphi content-sync engine

Shallow embedding of the Python sources (`upload_content.py`,
`askdelphi_client.py`, `src/askdelphi_client.py`) and proofs of the
specified properties: change detection, pagination, token lifecycle,
response unwrapping, and the upload orchestrator.
-/

namespace AskDelphi

/-- JSON values as handled by the Python scripts: `None`, booleans, numbers
(modelled as integers), strings, lists and dicts (dicts as ordered
association lists, mirroring Python's insertion-ordered `dict`). -/
inductive Json where
  | null : Json
  | bool (b : Bool) : Json
  | num (n : Int) : Json
  | str (s : String) : Json
  | arr (xs : List Json) : Json
  | obj (kvs : List (String × Json)) : Json
deriving Repr

/-- Boolean equality on `Json`, mirroring Python `==` on such values. -/
def Json.beq : Json → Json → Bool
  | .null, .null => true
  | .bool a, .bool b => a == b
  | .num a, .num b => a == b
  | .str a, .str b => a == b
  | .arr xs, .arr ys =>
      match xs, ys with
      | [], [] => true
      | x :: xs, y :: ys => Json.beq x y && Json.beq (.arr xs) (.arr ys)
      | _, _ => false
  | .obj kvs, .obj lvs =>
      match kvs, lvs with
      | [], [] => true
      | (k, v) :: kvs, (l, w) :: lvs =>
          k == l && Json.beq v w && Json.beq (.obj kvs) (.obj lvs)
      | _, _ => false
  | _, _ => false

/-- Structural induction principle for `Json` (the nested-inductive recursor
packaged for list members). -/
theorem Json.inductionOn {motive : Json → Prop}
    (hnull : motive .null) (hbool : ∀ b, motive (.bool b))
    (hnum : ∀ n, motive (.num n)) (hstr : ∀ s, motive (.str s))
    (harr : ∀ xs, (∀ x ∈ xs, motive x) → motive (.arr xs))
    (hobj : ∀ kvs, (∀ kv ∈ kvs, motive (Prod.snd kv)) → motive (.obj kvs)) :
    ∀ j, motive j
  | .null => hnull
  | .bool b => hbool b
  | .num n => hnum n
  | .str s => hstr s
  | .arr xs => harr xs (fun x hx =>
      have : sizeOf x < 1 + sizeOf xs := by
        have := List.sizeOf_lt_of_mem hx; omega
      Json.inductionOn hnull hbool hnum hstr harr hobj x)
  | .obj kvs => hobj kvs (fun kv hkv =>
      have : sizeOf kv.2 < 1 + sizeOf kvs := by
        have h1 := List.sizeOf_lt_of_mem hkv
        obtain ⟨k, v⟩ := kv
        simp only [Prod.mk.sizeOf_spec] at *
        omega
      Json.inductionOn hnull hbool hnum hstr harr hobj kv.2)
termination_by j => sizeOf j

/-- Python truthiness (`bool(x)`) for JSON values: `None`, `False`, `0`,
empty string / list / dict are falsy, everything else truthy. -/
def pyTruthy : Json → Bool
  | .null => false
  | .bool b => b
  | .num n => n != 0
  | .str s => s != ""
  | .arr xs => !xs.isEmpty
  | .obj kvs => !kvs.isEmpty

/-- `d[k]` lookup on a Python dict: the first binding for `k`
(Python dicts have unique keys). -/
def dictLookup (kvs : List (String × Json)) (k : String) : Option Json :=
  match kvs.find? (fun kv => kv.1 == k) with
  | some kv => some kv.2
  | none => none

/-- `d.get(k, default)` on a Python dict. -/
def dictGet (kvs : List (String × Json)) (k : String) (default : Json) : Json :=
  match dictLookup kvs k with
  | some v => v
  | none => default

/-- `k in d` membership test on a Python dict. -/
def dContains (kvs : List (String × Json)) (k : String) : Bool :=
  (dictLookup kvs k).isSome

/-- Whether a JSON value is a dict (Python `isinstance(value, dict)`). -/
def Json.isObj : Json → Bool
  | .obj _ => true
  | _ => false

/-- View a JSON value as a dict; `none` models the `AttributeError` /
`TypeError` Python raises when dict operations hit a non-dict. -/
def asObj : Json → Option (List (String × Json))
  | .obj kvs => some kvs
  | _ => none

/-- View a JSON value as a dict, defaulting to `[]`; total companion of
`asObj` used to state characterizations that assume well-formed input. -/
def objOf : Json → List (String × Json)
  | .obj kvs => kvs
  | _ => []

/-! ## Change Detection Engine (`upload_content.py`) -/

/-- `FIELDS_TO_IGNORE` from `upload_content.py`: the volatile fields stripped
before comparison. -/
def FIELDS_TO_IGNORE : List String :=
  ["version_id", "_checksum", "modified_at", "created_at"]

mutual
/-- The value transformation inside `normalize_topic`:
`normalize_topic(value) if isinstance(value, dict) else value`. -/
def normalizeVal : Json → Json
  | .obj kvs => .obj (normalize_topic kvs)
  | v => v

/-- `normalize_topic` from `upload_content.py`: the dict comprehension
keeping non-volatile keys and recursing into dict values only. -/
def normalize_topic : List (String × Json) → List (String × Json)
  | [] => []
  | (k, v) :: rest =>
      if k ∈ FIELDS_TO_IGNORE then normalize_topic rest
      else (k, normalizeVal v) :: normalize_topic rest
end

/-- Insert a key-value pair into a key-sorted list (helper for the
`sort_keys=True` behaviour of `json.dumps`). -/
def insertByKey (kv : String × Json) : List (String × Json) → List (String × Json)
  | [] => [kv]
  | hd :: tl => if kv.1 ≤ hd.1 then kv :: hd :: tl else hd :: insertByKey kv tl

/-- Sort dict entries by key (the `sort_keys=True` behaviour of
`json.dumps`). -/
def sortByKey (kvs : List (String × Json)) : List (String × Json) :=
  kvs.foldr insertByKey []

mutual
/-- Recursively sort every dict's entries by key (the `sort_keys=True`
behaviour of `json.dumps`, applied as a pre-pass). -/
def sortKeysRec : Json → Json
  | .obj kvs => .obj (sortByKey (sortKeysKvs kvs))
  | .arr xs => .arr (sortKeysArr xs)
  | v => v

/-- Key-sort pre-pass over dict entries. -/
def sortKeysKvs : List (String × Json) → List (String × Json)
  | [] => []
  | (k, v) :: rest => (k, sortKeysRec v) :: sortKeysKvs rest

/-- Key-sort pre-pass over list items. -/
def sortKeysArr : List Json → List Json
  | [] => []
  | x :: rest => sortKeysRec x :: sortKeysArr rest
end

mutual
/-- Deterministic rendering of a JSON value (string escaping simplified; no
proved claim depends on the exact rendering, only on the serializer being a
fixed function of its input). -/
def serialize : Json → String
  | .null => "null"
  | .bool true => "true"
  | .bool false => "false"
  | .num n => toString n
  | .str s => "\"" ++ s ++ "\""
  | .arr xs => "[" ++ serializeItems xs ++ "]"
  | .obj kvs => "\x7b" ++ serializeEntries kvs ++ "\x7d"

/-- Comma-separated serialization of list items. -/
def serializeItems : List Json → String
  | [] => ""
  | [x] => serialize x
  | x :: xs => serialize x ++ ", " ++ serializeItems xs

/-- Comma-separated serialization of dict entries. -/
def serializeEntries : List (String × Json) → String
  | [] => ""
  | [(k, v)] => "\"" ++ k ++ "\": " ++ serialize v
  | (k, v) :: kvs => "\"" ++ k ++ "\": " ++ serialize v ++ ", " ++ serializeEntries kvs
end

/-- `json.dumps(value, sort_keys=True, ensure_ascii=False)`. -/
def json_dumps_sorted (j : Json) : String :=
  serialize (sortKeysRec j)

/-- `calculate_checksum` from `upload_content.py`: drop the `_checksum` key,
serialize with sorted keys, hash. The SHA-256 truncation
`hashlib.sha256(...).hexdigest()[:16]` is an arbitrary pure function of the
serialized string, so it is taken as a parameter `hash`; every theorem holds
for all `hash`. -/
def calculate_checksum (hash : String → String) (data : List (String × Json)) : String :=
  "sha256:" ++ hash (json_dumps_sorted (.obj (data.filter (fun kv => kv.1 ≠ "_checksum"))))

/-- One entry of the `changed_parts` list built by `diff_parts`. -/
structure PartChange where
  part_id : String
  change_type : String
  name : Json
deriving Repr

/-- First loop of `diff_parts`: parts that are new or whose `content`
changed, in iteration order over the modified parts. `none` models the
crash Python raises when a part value is not a dict (`part_data.get` on a
non-dict). -/
def diffPartsNew (original_parts : List (String × Json)) :
    List (String × Json) → Option (List PartChange)
  | [] => some []
  | (part_id, part_data) :: rest => do
      let pd ← asObj part_data
      let tail ← diffPartsNew original_parts rest
      if dContains original_parts part_id then do
        let od ← asObj (dictGet original_parts part_id .null)
        let orig_content := dictGet od "content" .null
        let new_content := dictGet pd "content" .null
        if Json.beq orig_content new_content then pure tail
        else pure ({ part_id := part_id, change_type := "modified",
                     name := dictGet pd "name" (.str part_id) } :: tail)
      else
        pure ({ part_id := part_id, change_type := "new",
                name := dictGet pd "name" (.str part_id) } :: tail)

/-- Second loop of `diff_parts`: parts present only in the original. -/
def diffPartsDeleted (modified_parts : List (String × Json)) :
    List (String × Json) → Option (List PartChange)
  | [] => some []
  | (part_id, part_data) :: rest => do
      let tail ← diffPartsDeleted modified_parts rest
      if dContains modified_parts part_id then pure tail
      else do
        let od ← asObj part_data
        pure ({ part_id := part_id, change_type := "deleted",
                name := dictGet od "name" (.str part_id) } :: tail)

/-- `diff_parts` from `upload_content.py`. -/
def diff_parts (original_parts modified_parts : List (String × Json)) :
    Option (List PartChange) := do
  let newAndModified ← diffPartsNew original_parts modified_parts
  let deleted ← diffPartsDeleted modified_parts original_parts
  pure (newAndModified ++ deleted)

/-- One entry of `ChangeReport.modified_topics` as built by
`detect_changes`. -/
structure ModifiedEntry where
  topic_id : String
  title : Json
  title_changed : Bool
  old_title : Json
  changed_parts : List PartChange
  old_checksum : String
  new_checksum : String
deriving Repr

/-- `ChangeReport` dataclass from `upload_content.py`. -/
structure ChangeReport where
  new_topics : List String := []
  modified_topics : List ModifiedEntry := []
  deleted_topics : List String := []
  unchanged_topics : List String := []
deriving Repr

/-- `ChangeReport.has_changes`. -/
def ChangeReport.has_changes (r : ChangeReport) : Bool :=
  !r.new_topics.isEmpty || !r.modified_topics.isEmpty || !r.deleted_topics.isEmpty

/-- `ChangeReport.total_changes`. -/
def ChangeReport.total_changes (r : ChangeReport) : Nat :=
  r.new_topics.length + r.modified_topics.length + r.deleted_topics.length

/-- Classification of a single topic present in the modified snapshot
(the body of the first loop of `detect_changes`). -/
inductive TopicClass where
  | isNew : TopicClass
  | isModified (entry : ModifiedEntry) : TopicClass
  | isUnchanged : TopicClass
deriving Repr

/-- The per-topic classification step of `detect_changes`. `none` models
the crash Python raises when a topic value (or its `parts` field, or a part
value) is not a dict. -/
def classifyTopic (original_topics : List (String × Json)) (hash : String → String)
    (topic_id : String) (topic_data : Json) : Option TopicClass :=
  match dictLookup original_topics topic_id with
  | none => some .isNew
  | some odata => do
      let oObj ← asObj odata
      let nObj ← asObj topic_data
      let orig_checksum := calculate_checksum hash (normalize_topic oObj)
      let new_checksum := calculate_checksum hash (normalize_topic nObj)
      if orig_checksum ≠ new_checksum then do
        let oparts ← asObj (dictGet oObj "parts" (.obj []))
        let nparts ← asObj (dictGet nObj "parts" (.obj []))
        let changed_parts ← diff_parts oparts nparts
        let title_changed := !Json.beq (dictGet oObj "title" .null) (dictGet nObj "title" .null)
        pure (.isModified
          { topic_id := topic_id
            title := dictGet nObj "title" .null
            title_changed := title_changed
            old_title := dictGet oObj "title" .null
            changed_parts := changed_parts
            old_checksum := orig_checksum
            new_checksum := new_checksum })
      else pure .isUnchanged

/-- The first loop of `detect_changes`: classify every topic of the
modified snapshot, accumulating the report lists in iteration order. -/
def processModified (original_topics : List (String × Json)) (hash : String → String) :
    List (String × Json) → Option ChangeReport
  | [] => some {}
  | (topic_id, topic_data) :: rest => do
      let c ← classifyTopic original_topics hash topic_id topic_data
      let rep ← processModified original_topics hash rest
      match c with
      | .isNew => pure { rep with new_topics := topic_id :: rep.new_topics }
      | .isModified e => pure { rep with modified_topics := e :: rep.modified_topics }
      | .isUnchanged => pure { rep with unchanged_topics := topic_id :: rep.unchanged_topics }

/-- `detect_changes` from `upload_content.py`, over the two loaded snapshot
dicts (`original.get("topics", {})`, `modified.get("topics", {})`). -/
def detect_changes (original modified : List (String × Json)) (hash : String → String) :
    Option ChangeReport := do
  let original_topics ← asObj (dictGet original "topics" (.obj []))
  let modified_topics ← asObj (dictGet modified "topics" (.obj []))
  let rep ← processModified original_topics hash modified_topics
  pure { rep with deleted_topics :=
    (original_topics.filter (fun kv => !dContains modified_topics kv.1)).map Prod.fst }

/-! ## Paginated Bulk Fetcher (`get_all_topics`, identical in
`askdelphi_client.py` and `src/askdelphi_client.py`) -/

/-- The response-structure handling inside the loop of `get_all_topics`:
extract `(items, total)` from one search response. `none` models the crash
Python raises when `items` is not a list (so `all_topics.extend(items)`
cannot run) or `topic_list` is a truthy non-dict (so `.get` fails). -/
def extractPage (result : List (String × Json)) : Option (List Json × Json) :=
  let topic_list := dictGet result "topicList" (.obj [])
  if pyTruthy topic_list then
    match topic_list with
    | .obj tl =>
        match dictGet tl "result" (.arr []) with
        | .arr items => some (items, dictGet tl "totalAvailable" (.num 0))
        | _ => none
    | _ => none
  else
    match dictGet result "items"
        (dictGet result "data" (dictGet result "result" (.arr []))) with
    | .arr items =>
        some (items, dictGet result "total"
          (dictGet result "totalCount" (dictGet result "totalAvailable" (.num 0))))
    | _ => none

/-- `get_all_topics`: the pagination loop, driven by the sequence of search
responses the server returns (one response per iteration; the `offset`
bookkeeping only determines what the server is asked for, not how the reply
is consumed). Termination is by the first empty page; if the given response
sequence is exhausted without an empty page the Python loop would keep
issuing calls, modelled as `none`. -/
def get_all_topics : List (List (String × Json)) → Option (List Json)
  | [] => none
  | response :: rest => do
      let (items, _total) ← extractPage response
      if items.isEmpty then pure items
      else do
        let more ← get_all_topics rest
        pure (items ++ more)

/-- A search response in the documented shape
`{ "topicList": { "result": [...], "totalAvailable": N } }`. -/
def standardResponse (items : List Json) (totalAvailable : Json) : List (String × Json) :=
  [("topicList", .obj [("result", .arr items), ("totalAvailable", totalAvailable)])]

/-- Reference behaviour: concatenate pages up to and including the first
empty one. -/
def flattenToFirstEmpty : List (List Json) → List Json
  | [] => []
  | items :: rest => if items.isEmpty then [] else items ++ flattenToFirstEmpty rest

/-! ## Authenticated Request Gateway (`_request` in
`src/askdelphi_client.py`, lines 661-676) -/

/-- Errors raised by the response handling of `_request`:
a non-success HTTP status (the raised message carries the status code and
response body via `_format_error_response`), or a wrapped API-level error
carrying the server's `errorMessage`. -/
inductive ApiError where
  | httpError (status : Nat) (body : Json) : ApiError
  | apiError (message : Json) : ApiError
deriving Repr

/-- The response handling of `_request`: `response.ok` check
(`requests` defines `ok` as `status_code < 400`), then the
`success`-envelope unwrapping. -/
def handle_response (status : Nat) (body : Json) : Except ApiError Json :=
  if status ≥ 400 then .error (.httpError status body)
  else
    match body with
    | .obj kvs =>
        if dContains kvs "success" then
          if pyTruthy (dictGet kvs "success" .null) then
            .ok (dictGet kvs "response" (.obj kvs))
          else
            .error (.apiError (dictGet kvs "errorMessage" (.str "Unknown error")))
        else .ok body
    | data => .ok data

/-! ## Token Lifecycle Manager (`_get_api_token` / `_refresh_tokens` in
`src/askdelphi_client.py`) -/

/-- The credential fields of `AskDelphiClient`. String fields use `""` for
Python `None` (both are falsy in the `if not self._x` checks the code
performs). `time.time()` and the expiry are modelled at integer
resolution. -/
structure AuthState where
  access_token : String
  refresh_token : String
  publication_url : String
  api_token : String
  api_token_expiry : Int
deriving Repr, DecidableEq

/-- Side-effecting steps taken by the token lifecycle code: the refresh
HTTP call, the token-derivation HTTP call, and writing the token cache
file. -/
inductive AuthCall where
  | refreshHttp : AuthCall
  | deriveHttp : AuthCall
  | saveTokens : AuthCall
deriving Repr, DecidableEq

/-- Body of a successful refresh response; `token`/`refresh` use `""` for an
absent or falsy field (matching `data.get("token") or ...`), while
`accessToken`/`refreshToken` keep `Option` because their lookups carry an
explicit default (`data.get("accessToken", self._access_token)`). -/
structure RefreshData where
  token : String
  accessToken : Option String
  refresh : String
  refreshToken : Option String
deriving Repr

/-- Python `a or b` on strings (`None`/`""` falsy). -/
def pyOrStr (a b : String) : String :=
  if a ≠ "" then a else b

/-- `_refresh_tokens`: guard on refresh token and publication URL, one
refresh HTTP call (`outcome` abstracts its network result: a non-`ok`
status or transport failure is `.error`), update both tokens with the
JSON-field fallbacks, save the cache file. Returns the new state (or the
raised error) together with the calls made. -/
def refresh_tokens (outcome : Except String RefreshData) (s : AuthState) :
    Except String AuthState × List AuthCall :=
  if s.refresh_token = "" ∨ s.publication_url = "" then
    (.error "No refresh token available", [])
  else
    match outcome with
    | .error e => (.error e, [.refreshHttp])
    | .ok data =>
        let s' := { s with
          access_token := pyOrStr data.token (data.accessToken.getD s.access_token)
          refresh_token := pyOrStr data.refresh (data.refreshToken.getD s.refresh_token) }
        (.ok s', [.refreshHttp, .saveTokens])

/-- `_get_api_token` (lines 443-540). The derivation phase (lines 464-539:
the `EditingApiToken` GET plus status / content-type / JWT validation and
expiry parsing) is abstracted by `deriveOutcome`, which yields the token
and the parsed expiry on success; the claims under proof concern only the
reuse / refresh / re-derive control flow around it. Returns the result of
the call, the final state, and the calls made. -/
def get_api_token (now : Int) (refreshOutcome : Except String RefreshData)
    (deriveOutcome : Except String (String × Int)) (s : AuthState) :
    Except String String × AuthState × List AuthCall :=
  if s.api_token ≠ "" ∧ now < s.api_token_expiry - 300 then
    (.ok s.api_token, s, [])
  else
    let step1 : AuthState × List AuthCall :=
      if s.refresh_token ≠ "" ∧ now ≥ s.api_token_expiry - 300 then
        match refresh_tokens refreshOutcome s with
        | (.ok s', tr) => (s', tr)
        | (.error _, tr) => (s, tr)
      else (s, [])
    let s1 := step1.1
    let tr1 := step1.2
    if s1.access_token = "" ∨ s1.publication_url = "" then
      (.error "No access token available. Call authenticate() first.", s1, tr1)
    else
      match deriveOutcome with
      | .error e => (.error e, s1, tr1 ++ [.deriveHttp])
      | .ok (token, expiry) =>
          (.ok token, { s1 with api_token := token, api_token_expiry := expiry },
            tr1 ++ [.deriveHttp])

/-! ## Upload Orchestrator (`upload_changes` in `upload_content.py`) -/

/-- Remote calls the orchestrator can issue through the client. Version ids
are JSON values, exactly as the Python passes them around
(`topic_data.get("version_id")` may be `None`). -/
inductive Call where
  | search : Call
  | cancelCheckout (topic_id : String) (version : Json) : Call
  | checkout (topic_id : String) : Call
  | updateMetadata (topic_id : String) (version : Json) (title : Json) : Call
  | updatePart (topic_id : String) (version : Json) (part_id : String) (part_data : Json) : Call
  | checkin (topic_id : String) (version : Json) : Call
  | create (title : Json) (topic_type_id : Json) : Call
deriving Repr

/-- The client as seen by the orchestrator: the outcome of each remote
call. `search_topics` is the single `query="", limit=1000` lookup of the
lock-reset step; `checkout_topic` already yields the extracted
`topicVersionId or topicVersionKey` value. Outcomes are fixed per call
shape (the orchestrator never repeats the same call within one topic, so
this loses no generality for the properties proved). -/
structure Client where
  search_topics : Except String Json
  cancel_checkout : String → Json → Except String Json
  checkout_topic : String → Except String Json
  update_topic_metadata : String → Json → Json → Except String Json
  update_topic_part : String → Json → String → Json → Except String Json
  checkin_topic : String → Json → Except String Json
  create_topic : Json → Json → Except String Json

/-- Python `a or b` on JSON values (first truthy operand). -/
def pyOrJson (a b : Json) : Json :=
  if pyTruthy a then a else b

/-- The lookup inside the lock-reset step of `upload_changes`
(lines 425-432): walk `search_result.get("topicList", {}).get("result", [])`
for the first entry whose `topicGuid or topicId` equals `topic_id`, and
take its `topicVersionKey or topicVersionId`. Any shape error raises inside
the enclosing `try` whose handler only logs, so a crash and a miss both
yield `none` (no cancel attempt). -/
def findCurrentVersion (searchResult : Json) (topic_id : String) : Option Json :=
  match searchResult with
  | .obj kvs =>
      match dictGet kvs "topicList" (.obj []) with
      | .obj tl =>
          match dictGet tl "result" (.arr []) with
          | .arr ts => goFind ts
          | _ => none
      | _ => none
  | _ => none
where
  /-- The `for t in topic_list` loop with its `break`; a non-dict entry
  crashes the whole block (swallowed by the caller). -/
  goFind : List Json → Option Json
    | [] => none
    | t :: rest =>
        match t with
        | .obj tkvs =>
            if Json.beq (pyOrJson (dictGet tkvs "topicGuid" .null) (dictGet tkvs "topicId" .null))
                (.str topic_id) then
              some (pyOrJson (dictGet tkvs "topicVersionKey" .null)
                (dictGet tkvs "topicVersionId" .null))
            else goFind rest
        | _ => none

/-- The best-effort lock-reset step (lines 422-442): search, locate the
topic's current remote version, and if one is found and truthy, attempt to
cancel any existing checkout. Every failure inside is swallowed; only the
calls made are observable. -/
def lockResetCalls (c : Client) (topic_id : String) : List Call :=
  match c.search_topics with
  | .error _ => [.search]
  | .ok res =>
      match findCurrentVersion res topic_id with
      | some v =>
          if pyTruthy v then [.search, .cancelCheckout topic_id v] else [.search]
      | none => [.search]

/-- Outcome of processing one modified topic: the record appended to
`UploadReport.updated` or to `UploadReport.errors`. -/
inductive TopicOutcome where
  | updated (topic_id : String) (title : Json) (parts_updated : Nat) : TopicOutcome
  | errored (topic_id : String) (title : Json) (error : String) : TopicOutcome
deriving Repr

/-- The part-update loop (lines 462-477): for every change of type
`"new"` or `"modified"`, fetch `topic_data.get("parts", {}).get(part_id, {})`
and push it; per-part failures are swallowed (only logged), successes are
counted. The `parts` lookup itself is outside the inner `try`, so a
non-dict `parts` value escapes to the topic-level handler (`none`). -/
def runPartUpdates (c : Client) (topic_id : String) (new_version_id : Json)
    (topic_data : List (String × Json)) :
    List PartChange → Option (Nat × List Call)
  | [] => some (0, [])
  | pc :: rest =>
      if pc.change_type = "new" ∨ pc.change_type = "modified" then do
        let parts ← asObj (dictGet topic_data "parts" (.obj []))
        let part_data := dictGet parts pc.part_id (.obj [])
        let (n, calls) ← runPartUpdates c topic_id new_version_id topic_data rest
        match c.update_topic_part topic_id new_version_id pc.part_id part_data with
        | .ok _ => some (n + 1, .updatePart topic_id new_version_id pc.part_id part_data :: calls)
        | .error _ => some (n, .updatePart topic_id new_version_id pc.part_id part_data :: calls)
      else
        runPartUpdates c topic_id new_version_id topic_data rest

/-- The body of the modified-topics loop of `upload_changes`
(lines 416-500): lock reset, checkout, optional title update, part
updates, checkin; on any exception escaping the per-topic `try`, record the
topic as failed and attempt `cancel_checkout(topic_id, version_id)` with
the version id read from the local file (its own failure is swallowed).
Returns the outcome record and the remote calls made, in order. -/
def process_modified_topic (c : Client) (topic_id : String)
    (topic_data : List (String × Json)) (title_changed : Bool)
    (changed_parts : List PartChange) : TopicOutcome × List Call :=
  let version_id := dictGet topic_data "version_id" .null
  let title := dictGet topic_data "title" .null
  let reset := lockResetCalls c topic_id
  match c.checkout_topic topic_id with
  | .error e =>
      (.errored topic_id title e,
        reset ++ [.checkout topic_id, .cancelCheckout topic_id version_id])
  | .ok new_version_id =>
      let metaCalls :=
        if title_changed then [Call.updateMetadata topic_id new_version_id title] else []
      match runPartUpdates c topic_id new_version_id topic_data changed_parts with
      | none =>
          (.errored topic_id title "parts lookup failed",
            reset ++ [.checkout topic_id] ++ metaCalls
              ++ [.cancelCheckout topic_id version_id])
      | some (parts_updated, partCalls) =>
          match c.checkin_topic topic_id new_version_id with
          | .error e =>
              (.errored topic_id title e,
                reset ++ [.checkout topic_id] ++ metaCalls ++ partCalls
                  ++ [.checkin topic_id new_version_id, .cancelCheckout topic_id version_id])
          | .ok _ =>
              (.updated topic_id title parts_updated,
                reset ++ [.checkout topic_id] ++ metaCalls ++ partCalls
                  ++ [.checkin topic_id new_version_id])

/-- A record of `UploadReport.created`. -/
structure CreatedRecord where
  topic_id : String
  title : Json
  new_id : Json
deriving Repr

/-- A record of `UploadReport.updated`. -/
structure UpdatedRecord where
  topic_id : String
  title : Json
  parts_updated : Nat
deriving Repr

/-- A record of `UploadReport.errors`. -/
structure ErrorRecord where
  topic_id : String
  title : Json
  error : String
deriving Repr

/-- A record of `UploadReport.warnings`. -/
structure WarningRecord where
  topic_id : String
  message : String
deriving Repr

/-- `UploadReport` dataclass from `upload_content.py`. -/
structure UploadReport where
  created : List CreatedRecord := []
  updated : List UpdatedRecord := []
  errors : List ErrorRecord := []
  warnings : List WarningRecord := []
  skipped : List String := []
  dry_run : Bool := false
deriving Repr

/-- The new-topics loop of `upload_changes` (lines 384-411): create each
new topic; failures are recorded in `errors`. `none` models the crash the
Python handler itself would hit when a topic value is not a dict (its
`topic_data.get("title")` would raise out of the handler). -/
def processNewTopics (c : Client) (topics : List (String × Json)) :
    List String → Option (List CreatedRecord × List ErrorRecord × List Call)
  | [] => some ([], [], [])
  | topic_id :: rest => do
      let topic_data ← dictLookup topics topic_id
      let kvs ← asObj topic_data
      let title := dictGet kvs "title" (.str "Untitled")
      let topic_type_id := dictGet kvs "topic_type_id" .null
      let (created, errors, calls) ← processNewTopics c topics rest
      match c.create_topic title topic_type_id with
      | .ok result =>
          match result with
          | .obj rkvs =>
              pure ({ topic_id := topic_id, title := dictGet kvs "title" .null,
                      new_id := dictGet rkvs "topicId" .null } :: created,
                    errors, .create title topic_type_id :: calls)
          | _ =>
              pure (created,
                { topic_id := topic_id, title := dictGet kvs "title" .null,
                  error := "result.get failed" } :: errors,
                .create title topic_type_id :: calls)
      | .error e =>
          pure (created,
            { topic_id := topic_id, title := dictGet kvs "title" .null,
              error := e } :: errors,
            .create title topic_type_id :: calls)

/-- The modified-topics loop of `upload_changes` (lines 414-502), folding
`process_modified_topic` over the change entries. `none` models the crash
when a modified topic id is missing from the file or maps to a non-dict. -/
def processModifiedTopics (c : Client) (topics : List (String × Json))
    (hash : String → String) :
    List ModifiedEntry → Option (List UpdatedRecord × List ErrorRecord × List Call)
  | [] => some ([], [], [])
  | entry :: rest => do
      let topic_data ← dictLookup topics entry.topic_id
      let kvs ← asObj topic_data
      let (updated, errors, calls) ← processModifiedTopics c topics hash rest
      match process_modified_topic c entry.topic_id kvs entry.title_changed
          entry.changed_parts with
      | (.updated tid title n, tcalls) =>
          pure ({ topic_id := tid, title := title, parts_updated := n } :: updated,
                errors, tcalls ++ calls)
      | (.errored tid title e, tcalls) =>
          pure (updated,
            { topic_id := tid, title := title, error := e } :: errors,
            tcalls ++ calls)

/-- `upload_changes` from the point where both snapshots are in hand
(file loading, authentication and the read-only backup download precede the
diff and issue no mutating calls; they are outside this model). Mirrors
lines 342-527: diff, dry-run early return, no-changes early return,
confirmation prompt (`user_confirms` models the interactive `input`),
then the create / update loops and deletion warnings. Returns the printed
change report, the upload report, and every remote call issued. -/
def upload_changes (c : Client) (original modified : List (String × Json))
    (hash : String → String) (dry_run force user_confirms : Bool) :
    Option (ChangeReport × UploadReport × List Call) := do
  let changes ← detect_changes original modified hash
  if dry_run then
    pure (changes, { dry_run := true }, [])
  else if !changes.has_changes then
    pure (changes, {}, [])
  else if !force ∧ !user_confirms then
    pure (changes, {}, [])
  else do
    let topics ← asObj (dictGet modified "topics" (.obj []))
    let (created, cerrors, ccalls) ← processNewTopics c topics changes.new_topics
    let (updated, uerrors, ucalls) ← processModifiedTopics c topics hash changes.modified_topics
    let warnings := changes.deleted_topics.map (fun tid =>
      { topic_id := tid,
        message := "Topic removed from local file but not deleted on server" : WarningRecord })
    pure (changes,
      { created := created, updated := updated, errors := cerrors ++ uerrors,
        warnings := warnings, skipped := [], dry_run := false },
      ccalls ++ ucalls)

/-! ## Theorems -/

/-- On a response in the documented shape, the loop body extracts exactly
the page items and the reported total. -/
theorem extractPage_standard (items : List Json) (t : Json) :
    extractPage (standardResponse items t) = some (items, t) := rfl

/-- C2: for every sequence of pages the server returns, the bulk fetcher
returns exactly the concatenation of all items it received, stopping at
(and only at) the first empty page — if no empty page ever arrives, the
loop does not stop — independently of the server-reported `totalAvailable`;
in particular, pages of sizes 50, 50, 3, 0 yield exactly 103 items even
when `totalAvailable` claims 200. -/
theorem get_all_topics_pagination :
    (∀ pages : List (List Json × Json),
      get_all_topics (pages.map fun p => standardResponse p.1 p.2) =
        if pages.any (fun p => p.1.isEmpty) then
          some (flattenToFirstEmpty (pages.map Prod.fst))
        else none)
    ∧ (get_all_topics
        (((List.replicate 50 (Json.num 1), Json.num 200) ::
          (List.replicate 50 (Json.num 2), Json.num 200) ::
          (List.replicate 3 (Json.num 3), Json.num 200) ::
          ([], Json.num 200) :: []).map fun p => standardResponse p.1 p.2)).map
        List.length = some 103 := by
  constructor
  · intro pages
    induction pages with
    | nil => rfl
    | cons p ps ih =>
        obtain ⟨items, t⟩ := p
        simp only [List.map_cons, List.any_cons, List.map, flattenToFirstEmpty]
        rw [get_all_topics, extractPage_standard]
        by_cases h : items.isEmpty
        · have : items = [] := List.isEmpty_iff.mp h
          subst this
          simp
        · simp only [Option.bind_eq_bind, Option.some_bind, h]
          rw [ih]
          by_cases hrest : ps.any (fun p => p.1.isEmpty)
          · simp [hrest, h]
          · simp [hrest, h]
  · rfl

/-- C8: with a cached api_token whose expiry is more than 300 seconds away,
`_get_api_token` returns it unchanged, mutates nothing, and performs no
network or filesystem calls. -/
theorem token_reuse_no_calls (now : Int) (ro : Except String RefreshData)
    (dr : Except String (String × Int)) (s : AuthState)
    (htok : s.api_token ≠ "")
    (hfresh : now < s.api_token_expiry - 300) :
    get_api_token now ro dr s = (.ok s.api_token, s, []) := by
  unfold get_api_token
  rw [if_pos ⟨htok, hfresh⟩]

/-- Witness for `token_reuse_no_calls` at a concrete credential state whose
token expires 1000 seconds after "now". -/
theorem token_reuse_no_calls_witness :
    (AuthState.mk "a" "r" "u" "tok" 1000).api_token ≠ "" ∧
    (0 : Int) < (AuthState.mk "a" "r" "u" "tok" 1000).api_token_expiry - 300 ∧
    get_api_token 0 (.error "boom") (.ok ("t2", 99)) (AuthState.mk "a" "r" "u" "tok" 1000) =
      (.ok "tok", AuthState.mk "a" "r" "u" "tok" 1000, []) :=
  ⟨by decide, by decide,
    token_reuse_no_calls 0 (.error "boom") (.ok ("t2", 99)) _ (by decide) (by decide)⟩

/-- C4: with a full credential state whose api_token expires in under 300
seconds, `_get_api_token` makes exactly one refresh attempt and then
re-derives the token: a failed refresh is swallowed (the run continues to
the derivation call, whose outcome alone decides the result), and a
successful refresh is likewise followed directly by the derivation call. -/
theorem token_refresh_trigger (now : Int) (ro : Except String RefreshData)
    (dr : Except String (String × Int)) (s : AuthState)
    (hacc : s.access_token ≠ "") (href : s.refresh_token ≠ "")
    (hpub : s.publication_url ≠ "")
    (hexp : s.api_token_expiry < now + 300) :
    (∀ e, ro = .error e →
      get_api_token now ro dr s =
        (match dr with
         | .ok (t, _) => .ok t
         | .error e2 => .error e2,
         match dr with
         | .ok (t, x) => { s with api_token := t, api_token_expiry := x }
         | .error _ => s,
         [.refreshHttp, .deriveHttp]))
    ∧ (∀ d, ro = .ok d →
        pyOrStr d.token (d.accessToken.getD s.access_token) ≠ "" →
        (get_api_token now ro dr s).2.2 = [.refreshHttp, .saveTokens, .deriveHttp]) := by
  have h1 : ¬(s.api_token ≠ "" ∧ now < s.api_token_expiry - 300) := by
    rintro ⟨-, h⟩; omega
  have h3 : now ≥ s.api_token_expiry - 300 := by omega
  constructor
  · rintro e rfl
    cases dr with
    | error e2 => simp [get_api_token, refresh_tokens, h1, h3, href, hpub, hacc]
    | ok p => obtain ⟨t, x⟩ := p; simp [get_api_token, refresh_tokens, h1, h3, href, hpub, hacc]
  · rintro d rfl hstr
    cases dr with
    | error e2 => simp [get_api_token, refresh_tokens, h1, h3, href, hpub, hacc, hstr]
    | ok p =>
        obtain ⟨t, x⟩ := p
        simp [get_api_token, refresh_tokens, h1, h3, href, hpub, hacc, hstr]

/-- Witness for `token_refresh_trigger`: expiry 100 seconds after "now",
the refresh attempt fails, and the call still derives a fresh token. -/
theorem token_refresh_trigger_witness :
    (AuthState.mk "a" "r" "u" "tok" 100).access_token ≠ "" ∧
    (AuthState.mk "a" "r" "u" "tok" 100).refresh_token ≠ "" ∧
    (AuthState.mk "a" "r" "u" "tok" 100).publication_url ≠ "" ∧
    (AuthState.mk "a" "r" "u" "tok" 100).api_token_expiry < (0 : Int) + 300 ∧
    get_api_token 0 (.error "refresh down") (.ok ("newtok", 5000))
        (AuthState.mk "a" "r" "u" "tok" 100) =
      (.ok "newtok", AuthState.mk "a" "r" "u" "newtok" 5000,
        [.refreshHttp, .deriveHttp]) :=
  ⟨by decide, by decide, by decide, by decide,
    (token_refresh_trigger 0 (.error "refresh down") (.ok ("newtok", 5000))
      (AuthState.mk "a" "r" "u" "tok" 100) (by decide) (by decide) (by decide)
      (by decide)).1 "refresh down" rfl⟩

/-- Counterexample to C6 as stated: a success-status JSON object whose
`success` field is neither boolean `false` nor boolean `true` (here the
number 0) is not returned verbatim — `_request` applies Python truthiness
to any present `success` field and raises. -/
theorem handle_response_claim_counterexample :
    handle_response 200 (.obj [("success", .num 0)]) =
      .error (.apiError (.str "Unknown error")) ∧
    ∀ x, handle_response 200 (.obj [("success", .num 0)]) ≠ .ok x := by
  refine ⟨rfl, fun x h => ?_⟩
  rw [show handle_response 200 (.obj [("success", .num 0)]) =
    .error (.apiError (.str "Unknown error")) from rfl] at h
  exact Except.noConfusion h

/-- C6 (amended): non-success HTTP status raises an error carrying status
and body; a success-status JSON object containing a `success` key is
unwrapped by Python truthiness of that key's value — truthy returns the
`response` sub-object (whole body if absent), falsy (including `false`, 0,
`""`, `null`, empty containers) raises an error carrying the server's
`errorMessage`; a JSON object without a `success` key, and any non-object
JSON body, are returned verbatim. -/
theorem handle_response_amended :
    (∀ status body, 400 ≤ status →
      handle_response status body = .error (.httpError status body))
    ∧ (∀ status kvs, status < 400 → dContains kvs "success" = true →
        pyTruthy (dictGet kvs "success" .null) = true →
        handle_response status (.obj kvs) = .ok (dictGet kvs "response" (.obj kvs)))
    ∧ (∀ status kvs, status < 400 → dContains kvs "success" = true →
        pyTruthy (dictGet kvs "success" .null) = false →
        handle_response status (.obj kvs) =
          .error (.apiError (dictGet kvs "errorMessage" (.str "Unknown error"))))
    ∧ (∀ status kvs, status < 400 → dContains kvs "success" = false →
        handle_response status (.obj kvs) = .ok (.obj kvs))
    ∧ (∀ status body, status < 400 → body.isObj = false →
        handle_response status body = .ok body) := by
  refine ⟨fun status body h => ?_, fun status kvs h hc ht => ?_,
    fun status kvs h hc ht => ?_, fun status kvs h hc => ?_, fun status body h hb => ?_⟩
  · simp [handle_response, h]
  · simp [handle_response, Nat.not_le.mpr h, hc, ht]
  · simp [handle_response, Nat.not_le.mpr h, hc, ht]
  · simp [handle_response, Nat.not_le.mpr h, hc]
  · cases body <;> simp_all [handle_response, Nat.not_le.mpr h, Json.isObj]

/-- Witness for `handle_response_amended`: a 500 response raises with the
status and body; a truthy-success envelope is unwrapped to its `response`
sub-object. -/
theorem handle_response_amended_witness :
    400 ≤ 500 ∧
    handle_response 500 .null = .error (.httpError 500 .null) ∧
    (200 < 400 ∧ dContains [("success", .bool true), ("response", .str "payload")] "success" = true ∧
      pyTruthy (dictGet [("success", .bool true), ("response", .str "payload")] "success" .null) = true) ∧
    handle_response 200 (.obj [("success", .bool true), ("response", .str "payload")]) =
      .ok (.str "payload") :=
  ⟨by decide, handle_response_amended.1 500 .null (by decide),
    ⟨by decide, by decide, by decide⟩,
    handle_response_amended.2.1 200 [("success", .bool true), ("response", .str "payload")]
      (by decide) (by decide) (by decide)⟩

/-! ### C3: normalization scope -/

mutual
/-- Claim-side checker: does the key `k` occur anywhere in a JSON value,
at any nesting level (through both dicts and lists)? -/
def mentionsKey (k : String) : Json → Bool
  | .obj kvs => mentionsKeyKvs k kvs
  | .arr xs => mentionsKeyArr k xs
  | _ => false

/-- `mentionsKey` over dict entries. -/
def mentionsKeyKvs (k : String) : List (String × Json) → Bool
  | [] => false
  | (k2, v) :: rest => k2 == k || mentionsKey k v || mentionsKeyKvs k rest

/-- `mentionsKey` over list items. -/
def mentionsKeyArr (k : String) : List Json → Bool
  | [] => false
  | x :: rest => mentionsKey k x || mentionsKeyArr k rest
end

mutual
/-- No key of `FIELDS_TO_IGNORE` occurs in any dict reachable through
chains of dict values (lists are not traversed, matching the reach of
`normalize_topic`). -/
def volatileFree : Json → Bool
  | .obj kvs => volatileFreeKvs kvs
  | _ => true

/-- `volatileFree` over dict entries. -/
def volatileFreeKvs : List (String × Json) → Bool
  | [] => true
  | (k, v) :: rest =>
      !(FIELDS_TO_IGNORE.contains k) && volatileFree v && volatileFreeKvs rest
end

/-- Counterexample to C3 as stated: normalization leaves the key
`"checksum"` (the stripped set contains `"_checksum"`, not `"checksum"`)
and does not descend into lists, so a `version_id` inside a list
survives. -/
theorem normalize_topic_claim_counterexample :
    mentionsKey "version_id" (.obj (normalize_topic
      [("checksum", .str "x"), ("items", .arr [.obj [("version_id", .num 1)]])])) = true ∧
    mentionsKey "checksum" (.obj (normalize_topic
      [("checksum", .str "x"), ("items", .arr [.obj [("version_id", .num 1)]])])) = true := by
  decide

/-- C3 (amended): normalization strips exactly the keys
`version_id`, `_checksum`, `modified_at`, `created_at` from the topic dict
and from every dict reachable through chains of dict values; values that
are not dicts — lists included, together with everything nested inside
them — are kept verbatim. -/
theorem normalize_topic_amended :
    (∀ topic : List (String × Json), volatileFreeKvs (normalize_topic topic) = true)
    ∧ (∀ v : Json, v.isObj = false → normalizeVal v = v) := by
  have main : ∀ j : Json, volatileFree (normalizeVal j) = true := by
    intro j
    induction j using Json.inductionOn with
    | hnull => rfl
    | hbool b => rfl
    | hnum n => rfl
    | hstr s => rfl
    | harr xs _ => rfl
    | hobj kvs ih =>
        show volatileFreeKvs (normalize_topic kvs) = true
        induction kvs with
        | nil => rfl
        | cons hd tl ihtl =>
            obtain ⟨k, v⟩ := hd
            have hv := ih (k, v) (by simp)
            have htl := ihtl (fun kv hkv => ih kv (by simp [hkv]))
            rw [normalize_topic]
            by_cases hk : k ∈ FIELDS_TO_IGNORE
            · rw [if_pos hk]; exact htl
            · rw [if_neg hk]
              show (!(FIELDS_TO_IGNORE.contains k) && volatileFree (normalizeVal v)
                && volatileFreeKvs (normalize_topic tl)) = true
              simp only [hv, htl, Bool.and_true]
              simpa using hk
  refine ⟨fun topic => ?_, fun v hv => ?_⟩
  · exact main (.obj topic)
  · cases v <;> simp_all [normalizeVal, Json.isObj]

/-- Witness for `normalize_topic_amended`: a concrete stripped topic passes
the volatile-free check, and a list value is returned verbatim. -/
theorem normalize_topic_amended_witness :
    volatileFreeKvs (normalize_topic [("version_id", .num 3), ("title", .str "t")]) = true ∧
    Json.isObj (.arr [.num 1]) = false ∧
    normalizeVal (.arr [.num 1]) = .arr [.num 1] :=
  ⟨normalize_topic_amended.1 [("version_id", .num 3), ("title", .str "t")],
    by decide, normalize_topic_amended.2 (.arr [.num 1]) (by decide)⟩

/-- C9: with `dry_run=True`, the upload performs the diff and reporting but
issues zero remote calls at all — in particular no create, checkout,
part-update, metadata-update, checkin, cancel-checkout or delete — and
returns the dry-run report. -/
theorem dry_run_purity (c : Client) (original modified : List (String × Json))
    (hash : String → String) (force user_confirms : Bool) (changes : ChangeReport)
    (h : detect_changes original modified hash = some changes) :
    upload_changes c original modified hash true force user_confirms =
      some (changes, { dry_run := true }, []) := by
  unfold upload_changes
  rw [h]
  rfl

/-- Witness for `dry_run_purity` on a one-topic snapshot pair with a
client that would fail every call. -/
theorem dry_run_purity_witness :
    detect_changes [("topics", .obj [("t1", .obj [("title", .str "X")])])]
        [("topics", .obj [])] (fun s => s) =
      some { deleted_topics := ["t1"] } ∧
    upload_changes
        (Client.mk (.error "net") (fun _ _ => .error "net") (fun _ => .error "net")
          (fun _ _ _ => .error "net") (fun _ _ _ _ => .error "net")
          (fun _ _ => .error "net") (fun _ _ => .error "net"))
        [("topics", .obj [("t1", .obj [("title", .str "X")])])]
        [("topics", .obj [])] (fun s => s) true false false =
      some ({ deleted_topics := ["t1"] }, { dry_run := true }, []) :=
  ⟨rfl, dry_run_purity _ _ _ _ false false _ rfl⟩

/-! ### C5 / C1: the modified-topic state machine -/

/-- Is a call a cancel-checkout? -/
def Call.isCancel : Call → Bool
  | .cancelCheckout _ _ => true
  | _ => false

/-- Is a call a checkout? -/
def Call.isCheckout : Call → Bool
  | .checkout _ => true
  | _ => false

/-- Is a call a checkin? -/
def Call.isCheckin : Call → Bool
  | .checkin _ _ => true
  | _ => false

/-- Is a call a part update? -/
def Call.isPartUpdate : Call → Bool
  | .updatePart _ _ _ _ => true
  | _ => false

/-- Was the topic recorded as updated (rather than failed)? -/
def TopicOutcome.isUpdated : TopicOutcome → Bool
  | .updated _ _ _ => true
  | _ => false

/-- Counterexample to C5 as stated: with a client whose checkout fails
because the topic is already locked, the orchestrator does not retry the
checkout — the trace holds exactly one checkout call, the lock-reset
attempt having happened unconditionally before it — and the topic is
recorded as failed at once (the trailing cancel uses the version id from
the local file, `"v-local"`). -/
theorem lock_conflict_no_retry_counterexample :
    process_modified_topic
        (Client.mk (.error "net") (fun _ _ => .ok .null)
          (fun _ => .error "Topic is already locked")
          (fun _ _ _ => .ok .null) (fun _ _ _ _ => .ok .null)
          (fun _ _ => .ok .null) (fun _ _ => .ok .null))
        "A" [("version_id", .str "v-local"), ("title", .str "T")] false [] =
      (.errored "A" (.str "T") "Topic is already locked",
        [.search, .checkout "A", .cancelCheckout "A" (.str "v-local")]) ∧
    ((process_modified_topic
        (Client.mk (.error "net") (fun _ _ => .ok .null)
          (fun _ => .error "Topic is already locked")
          (fun _ _ _ => .ok .null) (fun _ _ _ _ => .ok .null)
          (fun _ _ => .ok .null) (fun _ _ => .ok .null))
        "A" [("version_id", .str "v-local"), ("title", .str "T")] false []).2.countP
      Call.isCheckout = 1) := by
  constructor
  · rfl
  · rfl

/-- C5 (amended): the lock reset (search plus best-effort cancel of any
existing checkout) happens unconditionally before every checkout, not in
response to a lock conflict; the checkout itself is attempted exactly once,
and if it fails — locked or not — the topic is immediately recorded as
failed and one best-effort cancel-checkout with the local file's
`version_id` is attempted; there is no retry and nothing else runs. -/
theorem checkout_failure_no_retry (c : Client) (topic_id : String)
    (topic_data : List (String × Json)) (title_changed : Bool)
    (changed_parts : List PartChange) (e : String)
    (hco : c.checkout_topic topic_id = .error e) :
    process_modified_topic c topic_id topic_data title_changed changed_parts =
      (.errored topic_id (dictGet topic_data "title" .null) e,
        lockResetCalls c topic_id
          ++ [.checkout topic_id,
              .cancelCheckout topic_id (dictGet topic_data "version_id" .null)]) := by
  unfold process_modified_topic
  rw [hco]

/-- Witness for `checkout_failure_no_retry` at a concrete client and
topic. -/
theorem checkout_failure_no_retry_witness :
    (Client.mk (.error "net") (fun _ _ => .ok .null) (fun _ => .error "locked")
        (fun _ _ _ => .ok .null) (fun _ _ _ _ => .ok .null)
        (fun _ _ => .ok .null) (fun _ _ => .ok .null)).checkout_topic "B" =
      .error "locked" ∧
    process_modified_topic
        (Client.mk (.error "net") (fun _ _ => .ok .null) (fun _ => .error "locked")
          (fun _ _ _ => .ok .null) (fun _ _ _ _ => .ok .null)
          (fun _ _ => .ok .null) (fun _ _ => .ok .null))
        "B" [("version_id", .num 7)] true [] =
      (.errored "B" .null "locked",
        [.search, .checkout "B", .cancelCheckout "B" (.num 7)]) :=
  ⟨rfl, (checkout_failure_no_retry _ "B" [("version_id", .num 7)] true [] "locked" rfl).trans
    (by rfl)⟩

/-- Did an `Except` succeed? (`Bool`-valued, for counting successful part
updates.) -/
def exceptOk : Except String Json → Bool
  | .ok _ => true
  | .error _ => false

/-- The changes the part-update loop acts on: those classified `"new"` or
`"modified"`. -/
def relevantParts (changed_parts : List PartChange) : List PartChange :=
  changed_parts.filter fun pc =>
    decide (pc.change_type = "new" ∨ pc.change_type = "modified")

/-- The update call the loop issues for one part change. -/
def partCallOf (topic_id : String) (v : Json) (parts : List (String × Json))
    (pc : PartChange) : Call :=
  .updatePart topic_id v pc.part_id (dictGet parts pc.part_id (.obj []))

/-- Characterization of the part-update loop when the `parts` field is a
dict: one update call per `"new"`/`"modified"` change, individual failures
swallowed, successes counted. -/
theorem runPartUpdates_eq (c : Client) (topic_id : String) (v : Json)
    (topic_data parts : List (String × Json))
    (hparts : dictGet topic_data "parts" (.obj []) = .obj parts) :
    ∀ l : List PartChange,
      runPartUpdates c topic_id v topic_data l =
        some
          ((relevantParts l).countP
            (fun pc => exceptOk (c.update_topic_part topic_id v pc.part_id
              (dictGet parts pc.part_id (.obj [])))),
           (relevantParts l).map (partCallOf topic_id v parts)) := by
  intro l
  induction l with
  | nil => rfl
  | cons pc rest ih =>
      rw [runPartUpdates]
      by_cases hty : pc.change_type = "new" ∨ pc.change_type = "modified"
      · rw [if_pos hty, hparts]
        simp only [asObj, Option.some_bind, ih, Option.bind_eq_bind]
        cases hu : c.update_topic_part topic_id v pc.part_id
            (dictGet parts pc.part_id (.obj [])) with
        | ok x =>
            simp [relevantParts, List.filter_cons, hty, List.countP_cons,
              exceptOk, hu, partCallOf]
        | error e =>
            simp [relevantParts, List.filter_cons, hty, List.countP_cons,
              exceptOk, hu, partCallOf]
      · rw [if_neg hty, ih]
        simp [relevantParts, List.filter_cons, hty]

/-- Counterexample to C1 as stated: a client whose part-update call throws
after a successful checkout. The orchestrator swallows the failure: it
issues no cancel-checkout at all, does call checkin, and records the topic
as updated rather than in `errors`. -/
theorem part_update_failure_counterexample :
    process_modified_topic
        (Client.mk (.error "net") (fun _ _ => .ok .null) (fun _ => .ok (.str "v2"))
          (fun _ _ _ => .ok .null) (fun _ _ _ _ => .error "part update failed")
          (fun _ _ => .ok .null) (fun _ _ => .ok .null))
        "A" [("version_id", .str "v-local"), ("title", .str "T"),
             ("parts", .obj [("p1", .obj [("content", .str "new")])])]
        false [PartChange.mk "p1" "modified" (.str "Body")] =
      (.updated "A" (.str "T") 0,
        [.search, .checkout "A",
         .updatePart "A" (.str "v2") "p1" (.obj [("content", .str "new")]),
         .checkin "A" (.str "v2")]) ∧
    ((process_modified_topic
        (Client.mk (.error "net") (fun _ _ => .ok .null) (fun _ => .ok (.str "v2"))
          (fun _ _ _ => .ok .null) (fun _ _ _ _ => .error "part update failed")
          (fun _ _ => .ok .null) (fun _ _ => .ok .null))
        "A" [("version_id", .str "v-local"), ("title", .str "T"),
             ("parts", .obj [("p1", .obj [("content", .str "new")])])]
        false [PartChange.mk "p1" "modified" (.str "Body")]).2.countP Call.isCancel = 0) ∧
    ((process_modified_topic
        (Client.mk (.error "net") (fun _ _ => .ok .null) (fun _ => .ok (.str "v2"))
          (fun _ _ _ => .ok .null) (fun _ _ _ _ => .error "part update failed")
          (fun _ _ => .ok .null) (fun _ _ => .ok .null))
        "A" [("version_id", .str "v-local"), ("title", .str "T"),
             ("parts", .obj [("p1", .obj [("content", .str "new")])])]
        false [PartChange.mk "p1" "modified" (.str "Body")]).2.countP Call.isCheckin = 1) := by
  refine ⟨rfl, rfl, rfl⟩

/-- C1 (amended): part-update failures after a successful checkout are
swallowed — every `"new"`/`"modified"` part is attempted, failed ones are
only excluded from the success count, checkin is still issued with the
checkout's version id, the topic is recorded as updated (never in
`errors`), and no cancel-checkout is triggered (with no stale lock found
during reset, none occurs in the whole run). -/
theorem part_update_failure_swallowed (c : Client) (topic_id : String)
    (topic_data parts : List (String × Json)) (title_changed : Bool)
    (changed_parts : List PartChange) (v r : Json) (se : String)
    (hsearch : c.search_topics = .error se)
    (hco : c.checkout_topic topic_id = .ok v)
    (hparts : dictGet topic_data "parts" (.obj []) = .obj parts)
    (hci : c.checkin_topic topic_id v = .ok r) :
    process_modified_topic c topic_id topic_data title_changed changed_parts =
      (.updated topic_id (dictGet topic_data "title" .null)
        ((relevantParts changed_parts).countP
          (fun pc => exceptOk (c.update_topic_part topic_id v pc.part_id
            (dictGet parts pc.part_id (.obj []))))),
       [Call.search, Call.checkout topic_id]
         ++ (if title_changed then
              [Call.updateMetadata topic_id v (dictGet topic_data "title" .null)] else [])
         ++ (relevantParts changed_parts).map (partCallOf topic_id v parts)
         ++ [Call.checkin topic_id v]) := by
  unfold process_modified_topic
  rw [hco]
  dsimp only
  rw [runPartUpdates_eq c topic_id v topic_data parts hparts]
  dsimp only
  rw [hci]
  unfold lockResetCalls
  rw [hsearch]
  simp

/-- Witness for `part_update_failure_swallowed` at a concrete client whose
single part update fails. -/
theorem part_update_failure_swallowed_witness :
    (Client.mk (.error "net") (fun _ _ => .ok .null) (fun _ => .ok (.str "w9"))
        (fun _ _ _ => .ok .null) (fun _ _ _ _ => .error "boom")
        (fun _ _ => .ok .null) (fun _ _ => .ok .null)).search_topics = .error "net" ∧
    (Client.mk (.error "net") (fun _ _ => .ok .null) (fun _ => .ok (.str "w9"))
        (fun _ _ _ => .ok .null) (fun _ _ _ _ => .error "boom")
        (fun _ _ => .ok .null) (fun _ _ => .ok .null)).checkout_topic "W" = .ok (.str "w9") ∧
    dictGet [("title", .str "WT"), ("parts", .obj [("q", .obj [("content", .num 1)])])]
        "parts" (.obj []) = .obj [("q", .obj [("content", .num 1)])] ∧
    (Client.mk (.error "net") (fun _ _ => .ok .null) (fun _ => .ok (.str "w9"))
        (fun _ _ _ => .ok .null) (fun _ _ _ _ => .error "boom")
        (fun _ _ => .ok .null) (fun _ _ => .ok .null)).checkin_topic "W" (.str "w9") =
      .ok .null ∧
    process_modified_topic
        (Client.mk (.error "net") (fun _ _ => .ok .null) (fun _ => .ok (.str "w9"))
          (fun _ _ _ => .ok .null) (fun _ _ _ _ => .error "boom")
          (fun _ _ => .ok .null) (fun _ _ => .ok .null))
        "W" [("title", .str "WT"), ("parts", .obj [("q", .obj [("content", .num 1)])])]
        false [PartChange.mk "q" "new" .null] =
      (.updated "W" (.str "WT") 0,
        [.search, .checkout "W",
         .updatePart "W" (.str "w9") "q" (.obj [("content", .num 1)]),
         .checkin "W" (.str "w9")]) :=
  ⟨rfl, rfl, rfl, rfl,
    (part_update_failure_swallowed
      (Client.mk (.error "net") (fun _ _ => .ok .null) (fun _ => .ok (.str "w9"))
        (fun _ _ _ => .ok .null) (fun _ _ _ _ => .error "boom")
        (fun _ _ => .ok .null) (fun _ _ => .ok .null))
      "W" [("title", .str "WT"), ("parts", .obj [("q", .obj [("content", .num 1)])])]
      [("q", .obj [("content", .num 1)])] false [PartChange.mk "q" "new" .null]
      (.str "w9") .null "net" rfl rfl rfl rfl).trans (by rfl)⟩

/-! ### C7 / C10: change-detection structure -/

/-- In a dict with distinct keys, lookup finds exactly the stored value. -/
theorem dictLookup_eq_some_of_mem (kvs : List (String × Json))
    (hnodup : (kvs.map Prod.fst).Nodup) (k : String) (v : Json)
    (hm : (k, v) ∈ kvs) : dictLookup kvs k = some v := by
  induction kvs with
  | nil => cases hm
  | cons hd tl ih =>
      obtain ⟨k2, v2⟩ := hd
      simp only [List.map_cons, List.nodup_cons] at hnodup
      rcases List.mem_cons.mp hm with heq | htl
      · obtain ⟨rfl, rfl⟩ := Prod.mk.inj heq
        simp [dictLookup]
      · have hne : k2 ≠ k := by
          rintro rfl
          exact hnodup.1 (List.mem_map.mpr ⟨(k2, v), htl, rfl⟩)
        simp only [dictLookup, List.find?]
        rw [show ((k2, v2).1 == k) = false from beq_eq_false_iff_ne.mpr hne]
        exact ih hnodup.2 htl

/-- A found binding is a member with the looked-up key. -/
theorem mem_of_dictLookup_eq_some (kvs : List (String × Json)) (k : String) (v : Json)
    (h : dictLookup kvs k = some v) : (k, v) ∈ kvs := by
  unfold dictLookup at h
  cases hf : kvs.find? (fun kv => kv.1 == k) with
  | none => rw [hf] at h; cases h
  | some kv =>
      rw [hf] at h
      obtain ⟨rfl⟩ := Option.some.injEq .. ▸ h
      have hm := List.mem_of_find?_eq_some hf
      have hp := List.find?_some hf
      have : kv.1 = k := by simpa using hp
      obtain ⟨a, b⟩ := kv
      subst this
      simpa [h] using hm

/-- Membership makes `in` true. -/
theorem dContains_eq_true_iff (kvs : List (String × Json)) (k : String) :
    dContains kvs k = true ↔ k ∈ kvs.map Prod.fst := by
  unfold dContains dictLookup
  cases hf : kvs.find? (fun kv => kv.1 == k) with
  | none =>
      simp only [Option.isSome_none]
      constructor
      · intro h; cases h
      · intro hmem
        obtain ⟨⟨a, b⟩, hab, rfl⟩ := List.mem_map.mp hmem
        have := List.find?_eq_none.mp hf (a, b) hab
        simp at this
  | some kv =>
      simp only [Option.isSome_some, true_iff]
      have hm := List.mem_of_find?_eq_some hf
      have hp := List.find?_some hf
      have : kv.1 = k := by simpa using hp
      exact this ▸ List.mem_map.mpr ⟨kv, hm, rfl⟩

/-- A topic compared with itself is classified unchanged. -/
theorem classifyTopic_self (orig : List (String × Json)) (hash : String → String)
    (tid : String) (tdata : Json)
    (hl : dictLookup orig tid = some tdata) (hobj : tdata.isObj = true) :
    classifyTopic orig hash tid tdata = some .isUnchanged := by
  unfold classifyTopic
  rw [hl]
  cases tdata with
  | obj kvs => simp [asObj]
  | null => cases hobj
  | bool b => cases hobj
  | num n => cases hobj
  | str s => cases hobj
  | arr xs => cases hobj

/-- Classifying a snapshot's own topics yields only `unchanged`. -/
theorem processModified_self (S : List (String × Json)) (hash : String → String) :
    ∀ L : List (String × Json),
      (∀ kv ∈ L, dictLookup S kv.1 = some kv.2 ∧ (Prod.snd kv).isObj = true) →
      processModified S hash L = some { unchanged_topics := L.map Prod.fst } := by
  intro L
  induction L with
  | nil => intro _; rfl
  | cons hd tl ih =>
      intro h
      obtain ⟨tid, td⟩ := hd
      have hhd := h (tid, td) (List.mem_cons_self _ _)
      rw [processModified, classifyTopic_self S hash tid td hhd.1 hhd.2,
        ih (fun kv hkv => h kv (List.mem_cons_of_mem _ hkv))]
      rfl

/-- C7: diffing any snapshot against itself yields an empty ChangeSet —
no new, modified or deleted topics; every topic id is classified
unchanged. -/
theorem diff_self_empty (S : List (String × Json)) (hash : String → String)
    (topics : List (String × Json))
    (hT : dictGet S "topics" (.obj []) = .obj topics)
    (hvals : ∀ kv ∈ topics, (Prod.snd kv).isObj = true)
    (hnodup : (topics.map Prod.fst).Nodup) :
    detect_changes S S hash = some { unchanged_topics := topics.map Prod.fst } := by
  unfold detect_changes
  rw [hT]
  simp only [asObj, Option.some_bind, Option.bind_eq_bind]
  rw [processModified_self topics hash topics
    (fun kv hkv => ⟨dictLookup_eq_some_of_mem topics hnodup kv.1 kv.2 hkv,
      hvals kv hkv⟩)]
  have hfil : topics.filter (fun kv => !dContains topics kv.1) = [] := by
    rw [List.filter_eq_nil_iff]
    intro kv hkv
    have : dContains topics kv.1 = true :=
      (dContains_eq_true_iff topics kv.1).mpr (List.mem_map.mpr ⟨kv, hkv, rfl⟩)
    simp [this]
  simp [hfil]

/-- Witness for `diff_self_empty` on a concrete two-topic snapshot. -/
theorem diff_self_empty_witness :
    dictGet [("topics", .obj [("t1", .obj [("title", .str "X")]),
        ("t2", .obj [("title", .str "Y")])])] "topics" (.obj []) =
      .obj [("t1", .obj [("title", .str "X")]), ("t2", .obj [("title", .str "Y")])] ∧
    (∀ kv ∈ [("t1", Json.obj [("title", Json.str "X")]),
        ("t2", Json.obj [("title", Json.str "Y")])], (Prod.snd kv).isObj = true) ∧
    ((["t1", "t2"] : List String).Nodup) ∧
    detect_changes [("topics", .obj [("t1", .obj [("title", .str "X")]),
        ("t2", .obj [("title", .str "Y")])])]
      [("topics", .obj [("t1", .obj [("title", .str "X")]),
        ("t2", .obj [("title", .str "Y")])])] (fun s => s) =
      some { unchanged_topics := ["t1", "t2"] } :=
  ⟨rfl, by decide, by decide,
    diff_self_empty
      [("topics", .obj [("t1", .obj [("title", .str "X")]),
        ("t2", .obj [("title", .str "Y")])])]
      (fun s => s)
      [("t1", .obj [("title", .str "X")]), ("t2", .obj [("title", .str "Y")])]
      rfl (by decide) (by decide)⟩

/-- Well-formedness of a topic value as `detect_changes` needs it: a dict
whose `parts` field (when present) is a dict of dict-valued parts —
exactly the shape Python requires to run without raising. -/
def wfTopic (v : Json) : Bool :=
  match v with
  | .obj kvs =>
      match dictGet kvs "parts" (.obj []) with
      | .obj ps => ps.all (fun p => (Prod.snd p).isObj)
      | _ => false
  | _ => false

/-- The fingerprint comparison `detect_changes` performs for a topic of the
modified snapshot against the original snapshot. -/
def changedFlag (original_topics : List (String × Json)) (hash : String → String)
    (kv : String × Json) : Bool :=
  decide (calculate_checksum hash (normalize_topic (objOf (dictGet original_topics kv.1 .null)))
    ≠ calculate_checksum hash (normalize_topic (objOf kv.2)))

/-- Unpack `wfTopic`. -/
theorem wfTopic_elim (v : Json) (h : wfTopic v = true) :
    ∃ kvs ps, v = .obj kvs ∧ dictGet kvs "parts" (.obj []) = .obj ps ∧
      ∀ p ∈ ps, (Prod.snd p).isObj = true := by
  cases v with
  | obj kvs =>
      rw [show wfTopic (.obj kvs) =
        (match dictGet kvs "parts" (.obj []) with
         | .obj ps => ps.all (fun p => (Prod.snd p).isObj)
         | _ => false) from rfl] at h
      cases hp : dictGet kvs "parts" (.obj []) with
      | obj ps =>
          rw [hp] at h
          exact ⟨kvs, ps, rfl, hp, by simpa [List.all_eq_true] using h⟩
      | null => rw [hp] at h; cases h
      | bool b => rw [hp] at h; cases h
      | num n => rw [hp] at h; cases h
      | str s => rw [hp] at h; cases h
      | arr xs => rw [hp] at h; cases h
  | null => cases h
  | bool b => cases h
  | num n => cases h
  | str s => cases h
  | arr xs => cases h

/-- A failed membership test means lookup finds nothing. -/
theorem dictLookup_eq_none_of_not_contains (kvs : List (String × Json)) (k : String)
    (h : dContains kvs k = false) : dictLookup kvs k = none := by
  unfold dContains at h
  exact Option.not_isSome_iff_eq_none.mp (by simp [h])

/-- A successful membership test yields a value. -/
theorem exists_of_contains (kvs : List (String × Json)) (k : String)
    (h : dContains kvs k = true) : ∃ v, dictLookup kvs k = some v := by
  unfold dContains at h
  exact Option.isSome_iff_exists.mp h

/-- With dict-valued parts on both sides, the first part loop cannot
crash. -/
theorem diffPartsNew_isSome (o : List (String × Json))
    (ho : ∀ p ∈ o, (Prod.snd p).isObj = true) :
    ∀ m : List (String × Json), (∀ p ∈ m, (Prod.snd p).isObj = true) →
      ∃ l, diffPartsNew o m = some l := by
  intro m
  induction m with
  | nil => exact fun _ => ⟨[], rfl⟩
  | cons hd tl ih =>
      intro hm
      obtain ⟨pid, pd⟩ := hd
      obtain ⟨pkvs, hpk⟩ : ∃ pkvs, pd = .obj pkvs := by
        have := hm (pid, pd) (List.mem_cons_self _ _)
        cases pd <;> simp_all [Json.isObj]
      obtain ⟨tail, htail⟩ := ih (fun p hp => hm p (List.mem_cons_of_mem _ hp))
      subst hpk
      rw [diffPartsNew, htail]
      simp only [asObj, Option.some_bind, Option.bind_eq_bind]
      by_cases hc : dContains o pid
      · obtain ⟨v, hv⟩ := exists_of_contains o pid hc
        obtain ⟨vkvs, hvk⟩ : ∃ vkvs, v = .obj vkvs := by
          have := ho (pid, v) (mem_of_dictLookup_eq_some o pid v hv)
          cases v <;> simp_all [Json.isObj]
        subst hvk
        rw [if_pos hc]
        rw [show dictGet o pid .null = .obj vkvs from by rw [dictGet, hv]]
        simp only [asObj, Option.some_bind]
        by_cases hbeq : Json.beq (dictGet vkvs "content" .null) (dictGet pkvs "content" .null)
        · rw [if_pos hbeq]; exact ⟨tail, rfl⟩
        · rw [if_neg hbeq]; exact ⟨_, rfl⟩
      · rw [if_neg hc]
        exact ⟨_, rfl⟩

/-- With dict-valued parts on the original side, the deleted-part loop
cannot crash. -/
theorem diffPartsDeleted_isSome (m : List (String × Json)) :
    ∀ o : List (String × Json), (∀ p ∈ o, (Prod.snd p).isObj = true) →
      ∃ l, diffPartsDeleted m o = some l := by
  intro o
  induction o with
  | nil => exact fun _ => ⟨[], rfl⟩
  | cons hd tl ih =>
      intro ho
      obtain ⟨pid, pd⟩ := hd
      obtain ⟨pkvs, hpk⟩ : ∃ pkvs, pd = .obj pkvs := by
        have := ho (pid, pd) (List.mem_cons_self _ _)
        cases pd <;> simp_all [Json.isObj]
      obtain ⟨tail, htail⟩ := ih (fun p hp => ho p (List.mem_cons_of_mem _ hp))
      subst hpk
      rw [diffPartsDeleted, htail]
      simp only [Option.some_bind, Option.bind_eq_bind]
      by_cases hc : dContains m pid
      · rw [if_pos hc]; exact ⟨tail, rfl⟩
      · rw [if_neg hc]; exact ⟨_, rfl⟩

/-- With dict-valued parts on both sides, `diff_parts` cannot crash. -/
theorem diff_parts_isSome (o m : List (String × Json))
    (ho : ∀ p ∈ o, (Prod.snd p).isObj = true)
    (hm : ∀ p ∈ m, (Prod.snd p).isObj = true) :
    ∃ l, diff_parts o m = some l := by
  obtain ⟨l1, h1⟩ := diffPartsNew_isSome o ho m hm
  obtain ⟨l2, h2⟩ := diffPartsDeleted_isSome m o ho
  exact ⟨l1 ++ l2, by rw [diff_parts, h1, h2]; rfl⟩

/-- How `detect_changes` classifies a well-formed topic of the modified
snapshot: absent from the original means new; present means modified or
unchanged according to the fingerprint comparison, with the modified entry
carrying the topic's id. -/
theorem classifyTopic_wf (O : List (String × Json)) (hash : String → String)
    (tid : String) (td : Json)
    (hOwf : ∀ kv ∈ O, wfTopic (Prod.snd kv) = true) (htd : wfTopic td = true) :
    (dContains O tid = false → classifyTopic O hash tid td = some .isNew)
    ∧ (dContains O tid = true → changedFlag O hash (tid, td) = true →
        ∃ e, classifyTopic O hash tid td = some (.isModified e) ∧ e.topic_id = tid)
    ∧ (dContains O tid = true → changedFlag O hash (tid, td) = false →
        classifyTopic O hash tid td = some .isUnchanged) := by
  obtain ⟨nkvs, nps, rfl, hnp, hnwf⟩ := wfTopic_elim td htd
  refine ⟨fun hc => ?_, fun hc hch => ?_, fun hc hch => ?_⟩
  · unfold classifyTopic
    rw [dictLookup_eq_none_of_not_contains O tid hc]
  · obtain ⟨v, hv⟩ := exists_of_contains O tid hc
    obtain ⟨okvs, ops, rfl, hop, howf⟩ :=
      wfTopic_elim v (hOwf (tid, v) (mem_of_dictLookup_eq_some O tid v hv))
    have hgetO : dictGet O tid .null = .obj okvs := by rw [dictGet, hv]
    have hne : calculate_checksum hash (normalize_topic okvs)
        ≠ calculate_checksum hash (normalize_topic nkvs) := by
      have := hch
      unfold changedFlag at this
      rw [hgetO] at this
      simpa [objOf] using this
    obtain ⟨cps, hcps⟩ := diff_parts_isSome ops nps howf hnwf
    unfold classifyTopic
    rw [hv]
    simp only [asObj, Option.some_bind, Option.bind_eq_bind]
    rw [if_pos hne, hop, hnp]
    simp only [asObj, Option.some_bind]
    rw [hcps]
    exact ⟨_, rfl, rfl⟩
  · obtain ⟨v, hv⟩ := exists_of_contains O tid hc
    obtain ⟨okvs, ops, rfl, hop, howf⟩ :=
      wfTopic_elim v (hOwf (tid, v) (mem_of_dictLookup_eq_some O tid v hv))
    have hgetO : dictGet O tid .null = .obj okvs := by rw [dictGet, hv]
    have heq : ¬(calculate_checksum hash (normalize_topic okvs)
        ≠ calculate_checksum hash (normalize_topic nkvs)) := by
      have := hch
      unfold changedFlag at this
      rw [hgetO] at this
      simpa [objOf] using this
    unfold classifyTopic
    rw [hv]
    simp only [asObj, Option.some_bind, Option.bind_eq_bind]
    rw [if_neg heq]
    rfl

/-- Characterization of the first `detect_changes` loop on well-formed
snapshots: the three id lists are exactly the filters of the modified
topics by membership in the original and by fingerprint change, in
iteration order, and nothing is deleted. -/
theorem processModified_wf (O : List (String × Json)) (hash : String → String)
    (hOwf : ∀ kv ∈ O, wfTopic (Prod.snd kv) = true) :
    ∀ L : List (String × Json), (∀ kv ∈ L, wfTopic (Prod.snd kv) = true) →
      ∃ rep, processModified O hash L = some rep
        ∧ rep.new_topics = (L.filter (fun kv => !dContains O kv.1)).map Prod.fst
        ∧ rep.modified_topics.map ModifiedEntry.topic_id =
            (L.filter (fun kv => dContains O kv.1 && changedFlag O hash kv)).map Prod.fst
        ∧ rep.unchanged_topics =
            (L.filter (fun kv => dContains O kv.1 && !changedFlag O hash kv)).map Prod.fst
        ∧ rep.deleted_topics = [] := by
  intro L
  induction L with
  | nil => exact fun _ => ⟨{}, rfl, rfl, rfl, rfl, rfl⟩
  | cons hd tl ih =>
      intro hL
      obtain ⟨tid, td⟩ := hd
      obtain ⟨rep, hrep, hnew, hmod, hunch, hdel⟩ :=
        ih (fun kv hkv => hL kv (List.mem_cons_of_mem _ hkv))
      have hcl := classifyTopic_wf O hash tid td hOwf (hL (tid, td) (List.mem_cons_self _ _))
      by_cases hc : dContains O tid
      · by_cases hch : changedFlag O hash (tid, td)
        · obtain ⟨e, he, hetid⟩ := hcl.2.1 hc hch
          refine ⟨{ rep with modified_topics := e :: rep.modified_topics },
            ?_, ?_, ?_, ?_, ?_⟩
          · rw [processModified, he, hrep]; rfl
          · simpa [List.filter_cons, hc] using hnew
          · simp only [List.map_cons, List.filter_cons, hc, hch, Bool.and_self, if_true]
            rw [hetid, hmod]
          · simpa [List.filter_cons, hc, hch] using hunch
          · exact hdel
        · have hchf : changedFlag O hash (tid, td) = false := by simpa using hch
          have he := hcl.2.2 hc hchf
          refine ⟨{ rep with unchanged_topics := tid :: rep.unchanged_topics },
            ?_, ?_, ?_, ?_, ?_⟩
          · rw [processModified, he, hrep]; rfl
          · simpa [List.filter_cons, hc] using hnew
          · simpa [List.filter_cons, hc, hchf] using hmod
          · simp only [List.filter_cons, hc, hchf, Bool.not_false, Bool.and_true,
              if_true, List.map_cons]
            rw [hunch]
          · exact hdel
      · have hcf : dContains O tid = false := by simpa using hc
        have he := hcl.1 hcf
        refine ⟨{ rep with new_topics := tid :: rep.new_topics }, ?_, ?_, ?_, ?_, ?_⟩
        · rw [processModified, he, hrep]; rfl
        · simp only [List.filter_cons, hcf, Bool.not_false, if_true, List.map_cons]
          rw [hnew]
        · simpa [List.filter_cons, hcf] using hmod
        · simpa [List.filter_cons, hcf] using hunch
        · exact hdel

/-- Membership in the projected filter of an association list. -/
theorem mem_map_fst_filter (p : String × Json → Bool) (L : List (String × Json))
    (id : String) :
    id ∈ (L.filter p).map Prod.fst ↔ ∃ v, (id, v) ∈ L ∧ p (id, v) = true := by
  constructor
  · intro h
    obtain ⟨⟨a, b⟩, hab, rfl⟩ := List.mem_map.mp h
    obtain ⟨hmem, hp⟩ := List.mem_filter.mp hab
    exact ⟨b, hmem, hp⟩
  · rintro ⟨v, hmem, hp⟩
    exact List.mem_map.mpr ⟨(id, v), List.mem_filter.mpr ⟨hmem, hp⟩, rfl⟩

/-- In a dict with distinct keys, a key determines its value. -/
theorem assoc_val_unique (L : List (String × Json))
    (hnodup : (L.map Prod.fst).Nodup) (k : String) (a b : Json)
    (ha : (k, a) ∈ L) (hb : (k, b) ∈ L) : a = b := by
  have e1 := dictLookup_eq_some_of_mem L hnodup k a ha
  have e2 := dictLookup_eq_some_of_mem L hnodup k b hb
  rw [e1] at e2
  exact Option.some.inj e2

/-- C10: on well-formed snapshots, change detection partitions the topic
ids — every id of the modified snapshot lands in exactly one of
new / modified / unchanged, the deleted ids are exactly those present only
in the original, each list is duplicate-free, and the four lists are
pairwise disjoint. -/
theorem change_detection_partition (O M : List (String × Json)) (hash : String → String)
    (otopics mtopics : List (String × Json))
    (hO : dictGet O "topics" (.obj []) = .obj otopics)
    (hM : dictGet M "topics" (.obj []) = .obj mtopics)
    (hwfO : ∀ kv ∈ otopics, wfTopic (Prod.snd kv) = true)
    (hwfM : ∀ kv ∈ mtopics, wfTopic (Prod.snd kv) = true)
    (hnodO : (otopics.map Prod.fst).Nodup)
    (hnodM : (mtopics.map Prod.fst).Nodup) :
    ∃ rep, detect_changes O M hash = some rep
      ∧ (∀ id, id ∈ mtopics.map Prod.fst ↔
          (id ∈ rep.new_topics ∨ id ∈ rep.modified_topics.map ModifiedEntry.topic_id
            ∨ id ∈ rep.unchanged_topics))
      ∧ (∀ id, id ∈ rep.deleted_topics ↔
          (id ∈ otopics.map Prod.fst ∧ id ∉ mtopics.map Prod.fst))
      ∧ rep.new_topics.Nodup
      ∧ (rep.modified_topics.map ModifiedEntry.topic_id).Nodup
      ∧ rep.unchanged_topics.Nodup
      ∧ rep.deleted_topics.Nodup
      ∧ rep.new_topics.Disjoint (rep.modified_topics.map ModifiedEntry.topic_id)
      ∧ rep.new_topics.Disjoint rep.unchanged_topics
      ∧ (rep.modified_topics.map ModifiedEntry.topic_id).Disjoint rep.unchanged_topics
      ∧ rep.deleted_topics.Disjoint rep.new_topics
      ∧ rep.deleted_topics.Disjoint (rep.modified_topics.map ModifiedEntry.topic_id)
      ∧ rep.deleted_topics.Disjoint rep.unchanged_topics := by
  obtain ⟨rep, hrep, hnew, hmod, hunch, hdel⟩ :=
    processModified_wf otopics hash hwfO mtopics hwfM
  have hdc : detect_changes O M hash =
      some { rep with deleted_topics :=
        (otopics.filter (fun kv => !dContains mtopics kv.1)).map Prod.fst } := by
    unfold detect_changes
    rw [hO, hM]
    simp only [asObj, Option.some_bind, Option.bind_eq_bind]
    rw [hrep]
    rfl
  refine ⟨_, hdc, ?_, ?_, ?_, ?_, ?_, ?_, ?_, ?_, ?_, ?_, ?_, ?_⟩
  · -- partition of the modified snapshot's ids
    intro id
    simp only [hnew, hmod, hunch]
    constructor
    · intro h
      obtain ⟨⟨a, v⟩, hmem, rfl⟩ := List.mem_map.mp h
      by_cases hc : dContains otopics a
      · by_cases hch : changedFlag otopics hash (a, v)
        · exact Or.inr (Or.inl ((mem_map_fst_filter _ _ _).mpr
            ⟨v, hmem, by simp [hc, hch]⟩))
        · have hchf : changedFlag otopics hash (a, v) = false := by simpa using hch
          exact Or.inr (Or.inr ((mem_map_fst_filter _ _ _).mpr
            ⟨v, hmem, by simp [hc, hchf]⟩))
      · have hcf : dContains otopics a = false := by simpa using hc
        exact Or.inl ((mem_map_fst_filter _ _ _).mpr ⟨v, hmem, by simp [hcf]⟩)
    · rintro (h | h | h) <;>
        obtain ⟨v, hmem, -⟩ := (mem_map_fst_filter _ _ _).mp h <;>
        exact List.mem_map.mpr ⟨(id, v), hmem, rfl⟩
  · -- deleted = present only in the original
    intro id
    constructor
    · intro h
      obtain ⟨v, hmem, hp⟩ := (mem_map_fst_filter _ _ _).mp h
      refine ⟨List.mem_map.mpr ⟨(id, v), hmem, rfl⟩, fun hin => ?_⟩
      have : dContains mtopics id = true := (dContains_eq_true_iff mtopics id).mpr hin
      simp [this] at hp
    · rintro ⟨hin, hout⟩
      obtain ⟨⟨a, v⟩, hmem, rfl⟩ := List.mem_map.mp hin
      refine (mem_map_fst_filter _ _ _).mpr ⟨v, hmem, ?_⟩
      have : dContains mtopics a = false := by
        cases hdm : dContains mtopics a with
        | false => rfl
        | true => exact absurd ((dContains_eq_true_iff mtopics a).mp hdm) hout
      simp [this]
  · rw [hnew]
    exact ((List.filter_sublist mtopics).map Prod.fst).nodup hnodM
  · rw [hmod]
    exact ((List.filter_sublist mtopics).map Prod.fst).nodup hnodM
  · rw [hunch]
    exact ((List.filter_sublist mtopics).map Prod.fst).nodup hnodM
  · exact ((List.filter_sublist otopics).map Prod.fst).nodup hnodO
  · -- new vs modified
    intro a han ham
    rw [hnew] at han
    rw [hmod] at ham
    obtain ⟨v1, h1, hp1⟩ := (mem_map_fst_filter _ _ _).mp han
    obtain ⟨v2, h2, hp2⟩ := (mem_map_fst_filter _ _ _).mp ham
    obtain rfl := assoc_val_unique mtopics hnodM a v1 v2 h1 h2
    simp at hp1 hp2
    simp [hp1] at hp2
  · -- new vs unchanged
    intro a han ham
    rw [hnew] at han
    rw [hunch] at ham
    obtain ⟨v1, h1, hp1⟩ := (mem_map_fst_filter _ _ _).mp han
    obtain ⟨v2, h2, hp2⟩ := (mem_map_fst_filter _ _ _).mp ham
    obtain rfl := assoc_val_unique mtopics hnodM a v1 v2 h1 h2
    simp at hp1 hp2
    simp [hp1] at hp2
  · -- modified vs unchanged
    intro a han ham
    rw [hmod] at han
    rw [hunch] at ham
    obtain ⟨v1, h1, hp1⟩ := (mem_map_fst_filter _ _ _).mp han
    obtain ⟨v2, h2, hp2⟩ := (mem_map_fst_filter _ _ _).mp ham
    obtain rfl := assoc_val_unique mtopics hnodM a v1 v2 h1 h2
    simp at hp1 hp2
    simp [hp1.2] at hp2
  · -- deleted vs new
    intro a had han
    obtain ⟨v1, h1, hp1⟩ := (mem_map_fst_filter _ _ _).mp had
    rw [hnew] at han
    obtain ⟨v2, h2, -⟩ := (mem_map_fst_filter _ _ _).mp han
    simp at hp1
    exact absurd ((dContains_eq_true_iff mtopics a).mpr
      (List.mem_map.mpr ⟨(a, v2), h2, rfl⟩)) (by simp [hp1])
  · -- deleted vs modified
    intro a had han
    obtain ⟨v1, h1, hp1⟩ := (mem_map_fst_filter _ _ _).mp had
    rw [hmod] at han
    obtain ⟨v2, h2, -⟩ := (mem_map_fst_filter _ _ _).mp han
    simp at hp1
    exact absurd ((dContains_eq_true_iff mtopics a).mpr
      (List.mem_map.mpr ⟨(a, v2), h2, rfl⟩)) (by simp [hp1])
  · -- deleted vs unchanged
    intro a had han
    obtain ⟨v1, h1, hp1⟩ := (mem_map_fst_filter _ _ _).mp had
    rw [hunch] at han
    obtain ⟨v2, h2, -⟩ := (mem_map_fst_filter _ _ _).mp han
    simp at hp1
    exact absurd ((dContains_eq_true_iff mtopics a).mpr
      (List.mem_map.mpr ⟨(a, v2), h2, rfl⟩)) (by simp [hp1])

/-- Witness for `change_detection_partition` on concrete snapshots with a
new topic `B`, a modified topic `A`, an unchanged topic `D` and a deleted
topic `C`. -/
theorem change_detection_partition_witness :
    (∀ kv ∈ [("A", Json.obj [("title", Json.str "X")]),
        ("C", Json.obj [("title", Json.str "Z")]),
        ("D", Json.obj [("title", Json.str "W")])], wfTopic (Prod.snd kv) = true) ∧
    (∀ kv ∈ [("A", Json.obj [("title", Json.str "Y")]),
        ("B", Json.obj [("title", Json.str "N")]),
        ("D", Json.obj [("title", Json.str "W")])], wfTopic (Prod.snd kv) = true) ∧
    (["A", "C", "D"] : List String).Nodup ∧
    (["A", "B", "D"] : List String).Nodup ∧
    ∃ rep, detect_changes
        [("topics", .obj [("A", .obj [("title", .str "X")]),
          ("C", .obj [("title", .str "Z")]), ("D", .obj [("title", .str "W")])])]
        [("topics", .obj [("A", .obj [("title", .str "Y")]),
          ("B", .obj [("title", .str "N")]), ("D", .obj [("title", .str "W")])])]
        (fun s => s) = some rep
      ∧ (∀ id, id ∈ ["A", "B", "D"] ↔
          (id ∈ rep.new_topics ∨ id ∈ rep.modified_topics.map ModifiedEntry.topic_id
            ∨ id ∈ rep.unchanged_topics))
      ∧ (∀ id, id ∈ rep.deleted_topics ↔ (id ∈ ["A", "C", "D"] ∧ id ∉ ["A", "B", "D"])) := by
  refine ⟨by decide, by decide, by decide, by decide, ?_⟩
  obtain ⟨rep, h1, h2, h3, -⟩ :=
    change_detection_partition
      [("topics", .obj [("A", .obj [("title", .str "X")]),
        ("C", .obj [("title", .str "Z")]), ("D", .obj [("title", .str "W")])])]
      [("topics", .obj [("A", .obj [("title", .str "Y")]),
        ("B", .obj [("title", .str "N")]), ("D", .obj [("title", .str "W")])])]
      (fun s => s)
      [("A", .obj [("title", .str "X")]), ("C", .obj [("title", .str "Z")]),
        ("D", .obj [("title", .str "W")])]
      [("A", .obj [("title", .str "Y")]), ("B", .obj [("title", .str "N")]),
        ("D", .obj [("title", .str "W")])]
      rfl rfl (by decide) (by decide) (by decide) (by decide)
  exact ⟨rep, h1, h2, h3⟩

end AskDelphi
